import Mathlib

/-!
Shallow embedding of `src/synchronizer/synchro_class.py` (class
`DatabaseSynchronizer`).  Databases are association lists from table name to
table data (a reflected schema plus a list of rows); the two SQLAlchemy
`MetaData` objects are modelled as caches from table name to the reflected
column list, because `Table(name, metadata, autoload_with=engine)` returns the
cached `Table` when `name` is already registered in `metadata` and otherwise
reflects from the live database and registers the result.  Exceptions are
modelled with `Except`; the log is a list of leveled entries.  The target-side
write transaction is modelled by folding over the source rows carrying the
current list of target rows (a `SELECT` inside the transaction sees the rows
inserted earlier in the same transaction) and installing the final row list in
the target database only when the whole fold succeeds; on an error the rows are
discarded (rollback) while log lines already emitted are kept.  An empty
`and_()` conjunction is modelled as `True` (SQLAlchemy 1.4 semantics).
-/

set_option maxHeartbeats 1000000

namespace SynchroClass

/-- Scalar cell value (tagged variant, per the data model: rows map column
names to scalar values). -/
inductive Value where
  | vNull : Value
  | vInt : Int → Value
  | vStr : String → Value
  | vBool : Bool → Value
deriving DecidableEq

/-- A row, as returned by `SELECT`: an association of column name to value;
`getattr(row, col)` is lookup of the first entry with that name. -/
abbrev Row := List (String × Value)

/-- Python `getattr(row, col)` as a partial lookup. -/
def getattrOpt (r : Row) (c : String) : Option Value :=
  (r.find? (fun p => p.1 == c)).map (fun p => p.2)

/-- Errors raised by the modelled operations.  `syncError` is the wrapper
error named by the specification's error taxonomy; the code never constructs
it (its `except` clause re-raises the caught exception unchanged), and it is
present here only so that statements can distinguish a wrapped error from the
underlying one. -/
inductive Err where
  | noSuchTable : String → Err
  | attributeError : String → Err
  | unconsumedColumn : String → Err
  | syncError : String → Err → Err
deriving DecidableEq

/-- String rendering of an error, standing in for Python's `str(e)`. -/
def errStr : Err → String
  | .noSuchTable n => "no such table " ++ n
  | .attributeError c => "could not locate attribute " ++ c
  | .unconsumedColumn c => "unconsumed column name " ++ c
  | .syncError t e => "sync error on " ++ t ++ ": " ++ errStr e

/-- Whether an error is the specification's `SyncError` wrapper. -/
def isSyncError : Err → Bool
  | .syncError _ _ => true
  | _ => false

/-- A reflected column: exactly the attributes `synchronize_table` copies when
creating the target table (lines 67-76 of the source). -/
structure ColumnDef where
  name : String
  type : String
  primary_key : Bool
  nullable : Bool
  unique : Bool
  index : Bool
  default : Option String
  server_default : Option String
deriving DecidableEq

/-- One table in a live database: its schema and its current rows. -/
structure TableData where
  schema : List ColumnDef
  rows : List Row
deriving DecidableEq

/-- A live database: association list from table name to table data. -/
abbrev Database := List (String × TableData)

/-- Lookup of a table in a live database (`inspector.has_table`, `SELECT`). -/
def dbTable (db : Database) (n : String) : Option TableData :=
  (db.find? (fun p => p.1 == n)).map (fun p => p.2)

/-- Replace the rows of table `n`, keeping its schema (transaction commit). -/
def dbSetRows : Database → String → List Row → Database
  | [], _, _ => []
  | (k, td) :: rest, n, rs =>
    if k == n then (k, { td with rows := rs }) :: dbSetRows rest n rs
    else (k, td) :: dbSetRows rest n rs

/-- A `MetaData` object: cache from table name to reflected columns. -/
abbrev Metadata := List (String × List ColumnDef)

/-- Lookup in a `MetaData` cache. -/
def metaLookup (m : Metadata) (n : String) : Option (List ColumnDef) :=
  (m.find? (fun p => p.1 == n)).map (fun p => p.2)

/-- `Table(n, metadata, autoload_with=engine)`: return the cached table if
`metadata` already holds one of that name, otherwise reflect it from the live
database, appending it to the cache; raises `NoSuchTableError` when the table
is in neither. -/
def reflectTable (m : Metadata) (db : Database) (n : String) :
    Except Err (List ColumnDef × Metadata) :=
  match metaLookup m n with
  | some cols => .ok (cols, m)
  | none =>
    match dbTable db n with
    | some td => .ok (td.schema, m ++ [(n, td.schema)])
    | none => .error (.noSuchTable n)

/-- One leveled log line. -/
inductive LogEntry where
  | info : String → LogEntry
  | warning : String → LogEntry
  | error : String → LogEntry
deriving DecidableEq

/-- State of a `DatabaseSynchronizer`: the two live databases reachable from
its engines, its two `MetaData` collections, and the emitted log. -/
structure SyncState where
  sourceDB : Database
  targetDB : Database
  source_metadata : Metadata
  target_metadata : Metadata
  log : List LogEntry
deriving DecidableEq

/-- Result dictionary of `get_table_differences`. -/
structure Differences where
  new_columns : List String
  modified_columns : List String
  removed_columns : List String
deriving DecidableEq

/-- First column of a given name (Python's name-keyed `.columns` access;
SQLAlchemy column names are unique within a table). -/
def findCol (cols : List ColumnDef) (n : String) : Option ColumnDef :=
  cols.find? (fun c => c.name == n)

/-- The two loops of `get_table_differences` (lines 41-49): a source column
absent from the target is new, present with a different declared-type string
is modified; a target column absent from the source is removed. -/
def diffColumns (source_columns target_columns : List ColumnDef) : Differences :=
  { new_columns :=
      (source_columns.filter (fun c => (findCol target_columns c.name).isNone)).map
        (fun c => c.name)
    modified_columns :=
      (source_columns.filter (fun c =>
        match findCol target_columns c.name with
        | some t => c.type != t.type
        | none => false)).map (fun c => c.name)
    removed_columns :=
      (target_columns.filter (fun c => (findCol source_columns c.name).isNone)).map
        (fun c => c.name) }

/-- `get_table_differences` (lines 23-51): reflect the source table, then the
target table (each through its `MetaData` cache), and diff the columns. -/
def get_table_differences (st : SyncState) (table_name : String) :
    SyncState × Except Err Differences :=
  match reflectTable st.source_metadata st.sourceDB table_name with
  | .error e => (st, .error e)
  | .ok (sourceCols, sm) =>
    match reflectTable st.target_metadata st.targetDB table_name with
    | .error e => ({ st with source_metadata := sm }, .error e)
    | .ok (targetCols, tm) =>
      ({ st with source_metadata := sm, target_metadata := tm },
       .ok (diffColumns sourceCols targetCols))

/-- Python `getattr` raising `AttributeError` when the column is absent. -/
def pyGetattr (r : Row) (c : String) : Except Err Value :=
  match getattrOpt r c with
  | some v => .ok v
  | none => .error (.attributeError c)

/-- Whether a schema has a column of the given name (`target_table.c` access). -/
def hasCol (cols : List ColumnDef) (n : String) : Bool :=
  cols.any (fun c => c.name == n)

/-- The `and_` condition of lines 90-93: the list of per-primary-key-column
equalities `target_table.c[col] == source_row[col]`; building it raises when
the target table lacks the column or the source row lacks the attribute. -/
def buildPkCondition (target_schema : List ColumnDef) :
    List String → Row → Except Err (List (String × Value))
  | [], _ => .ok []
  | c :: rest, r =>
    if hasCol target_schema c then
      match getattrOpt r c with
      | some v =>
        match buildPkCondition target_schema rest r with
        | .ok cond => .ok ((c, v) :: cond)
        | .error e => .error e
      | none => .error (.attributeError c)
    else .error (.attributeError c)

/-- Evaluating the conjunction on a candidate target row; the empty
conjunction is true. -/
def evalCondition (cond : List (String × Value)) (tgtRow : Row) : Bool :=
  cond.all (fun p => getattrOpt tgtRow p.1 == some p.2)

/-- Lines 100-103: `all(getattr(source_row, col) == getattr(existing_record,
col) for col in all_columns)`, short-circuiting on the first mismatch. -/
def records_match : List String → Row → Row → Except Err Bool
  | [], _, _ => .ok true
  | c :: rest, srcRow, tgtRow =>
    match getattrOpt srcRow c with
    | none => .error (.attributeError c)
    | some sv =>
      match getattrOpt tgtRow c with
      | none => .error (.attributeError c)
      | some tv =>
        if sv == tv then records_match rest srcRow tgtRow else .ok false

/-- Lines 106-109 / 116-119: `new_record = {col: getattr(source_row, col) for
col in all_columns}`. -/
def buildRecord (srcRow : Row) : List String → Except Err Row
  | [] => .ok []
  | c :: rest =>
    match getattrOpt srcRow c with
    | none => .error (.attributeError c)
    | some v =>
      match buildRecord srcRow rest with
      | .ok l => .ok ((c, v) :: l)
      | .error e => .error e

/-- `target_table.insert().values(new_record)`: raises on a column name the
target table cannot consume, otherwise appends the new row. -/
def insertValues (target_schema : List ColumnDef) (cur : List Row) (new_record : Row) :
    Except Err (List Row) :=
  match new_record.find? (fun p => !(hasCol target_schema p.1)) with
  | some p => .error (.unconsumedColumn p.1)
  | none => .ok (cur ++ [new_record])

/-- Rendering of a built condition, standing in for the f-string
interpolation of `primary_key_condition`. -/
def valueStr : Value → String
  | .vNull => "NULL"
  | .vInt i => toString i
  | .vStr s => s
  | .vBool b => toString b

/-- Rendering of a built condition, standing in for the f-string
interpolation of `primary_key_condition`. -/
def condStr (cond : List (String × Value)) : String :=
  String.intercalate " AND " (cond.map (fun p => p.1 ++ " = " ++ valueStr p.2))

/-- The body of the row loop (lines 89-123) for one source row: build the
primary-key condition, look up the first matching row among the current target
rows, and per Variant B insert the full source record when there is no match
or the matched row differs on some source column. -/
def syncRowStep (target_schema : List ColumnDef) (pkCols allCols : List String)
    (cur : List Row) (srcRow : Row) : Except Err (List Row × List LogEntry) :=
  match buildPkCondition target_schema pkCols srcRow with
  | .error e => .error e
  | .ok cond =>
    match cur.find? (fun r => evalCondition cond r) with
    | some existing_record =>
      match records_match allCols srcRow existing_record with
      | .error e => .error e
      | .ok true => .ok (cur, [])
      | .ok false =>
        match buildRecord srcRow allCols with
        | .error e => .error e
        | .ok new_record =>
          match insertValues target_schema cur new_record with
          | .error e => .error e
          | .ok cur2 =>
            .ok (cur2, [LogEntry.info ("Найдены различия в записи с ключом "
              ++ condStr cond ++ ". Создана новая запись.")])
    | none =>
      match buildRecord srcRow allCols with
      | .error e => .error e
      | .ok new_record =>
        match insertValues target_schema cur new_record with
        | .error e => .error e
        | .ok cur2 =>
          .ok (cur2, [LogEntry.info ("Добавлена новая запись с ключом "
            ++ condStr cond)])

/-- The whole row loop: fold `syncRowStep` over the source rows, carrying the
current target rows; log lines emitted before a failing row are kept, while
the row list is discarded on failure (the transaction rolls back). -/
def syncRows (target_schema : List ColumnDef) (pkCols allCols : List String) :
    List Row → List Row → List LogEntry × Except Err (List Row)
  | cur, [] => ([], .ok cur)
  | cur, srcRow :: rest =>
    match syncRowStep target_schema pkCols allCols cur srcRow with
    | .error e => ([], .error e)
    | .ok (cur2, logs) =>
      match syncRows target_schema pkCols allCols cur2 rest with
      | (logs2, res) => (logs ++ logs2, res)

/-- Lines 67-76: the column copied into the freshly created target table. -/
def copyColumn (column : ColumnDef) : ColumnDef :=
  { name := column.name
    type := column.type
    primary_key := column.primary_key
    nullable := column.nullable
    unique := column.unique
    index := column.index
    default := column.default
    server_default := column.server_default }

/-- Lines 61-78: when `inspector.has_table` is false, create the target table
with a copy of every source column and no rows. -/
def createIfAbsent (db : Database) (table_name : String)
    (sourceSchema : List ColumnDef) : Database :=
  if (dbTable db table_name).isNone then
    db ++ [(table_name, { schema := sourceSchema.map copyColumn, rows := [] })]
  else db

/-- The error line of line 130. -/
def syncErrMsg (table_name : String) (e : Err) : String :=
  "Ошибка при синхронизации таблицы " ++ table_name ++ ": " ++ errStr e

/-- Stage of `synchronize_table` after both reflections: read the full source
table, compute the primary-key and full column lists from the source schema,
and run the transactional row loop (lines 82-126). -/
def syncTableStage3 (st : SyncState) (table_name : String)
    (sourceSchema target_schema : List ColumnDef) : SyncState × Except Err Unit :=
  match dbTable st.sourceDB table_name with
  | none => (st, .error (.noSuchTable table_name))
  | some sourceTD =>
    match dbTable st.targetDB table_name with
    | none => (st, .error (.noSuchTable table_name))
    | some targetTD =>
      match syncRows target_schema
          ((sourceSchema.filter (fun c => c.primary_key)).map (fun c => c.name))
          (sourceSchema.map (fun c => c.name)) targetTD.rows sourceTD.rows with
      | (logs, .error e) => ({ st with log := st.log ++ logs }, .error e)
      | (logs, .ok newRows) =>
        ({ st with targetDB := dbSetRows st.targetDB table_name newRows,
                   log := st.log ++ logs
                     ++ [LogEntry.info ("Таблица " ++ table_name
                          ++ " успешно синхронизирована")] },
         .ok ())

/-- Stage of `synchronize_table` after the source reflection and the
create-if-absent step: reflect the target table (line 80), then run the row
loop. -/
def syncTableStage2 (st : SyncState) (table_name : String)
    (sourceSchema : List ColumnDef) : SyncState × Except Err Unit :=
  match reflectTable st.target_metadata st.targetDB table_name with
  | .error e => (st, .error e)
  | .ok (target_schema, tm) =>
    syncTableStage3 { st with target_metadata := tm } table_name sourceSchema
      target_schema

/-- The `try` body of `synchronize_table` (lines 60-126): reflect the source
table, create the target table when absent, then hand over to the later
stages. -/
def synchronize_table_inner (st : SyncState) (table_name : String) :
    SyncState × Except Err Unit :=
  match reflectTable st.source_metadata st.sourceDB table_name with
  | .error e => (st, .error e)
  | .ok (sourceSchema, sm) =>
    syncTableStage2
      { st with source_metadata := sm,
                targetDB := createIfAbsent st.targetDB table_name sourceSchema }
      table_name sourceSchema

/-- `synchronize_table` (lines 53-131): the `try` body, and on any exception
the error log line of line 130 followed by a bare `raise` of the same
exception. -/
def synchronize_table (st : SyncState) (table_name : String) :
    SyncState × Except Err Unit :=
  match synchronize_table_inner st table_name with
  | (st2, .error e) =>
    ({ st2 with log := st2.log ++ [LogEntry.error (syncErrMsg table_name e)] },
     .error e)
  | (st2, .ok _) => (st2, .ok ())

/-- Rendering of a `Differences` dictionary for the warning line. -/
def diffStr (d : Differences) : String :=
  "new: " ++ String.intercalate ", " d.new_columns
    ++ "; modified: " ++ String.intercalate ", " d.modified_columns
    ++ "; removed: " ++ String.intercalate ", " d.removed_columns

/-- `MetaData.reflect(bind=source_engine)` (line 141): reflect every table of
the live database that the cache does not already hold, keeping existing
entries. -/
def metadataReflectAll (m : Metadata) (db : Database) : Metadata :=
  m ++ (db.filter (fun p => (metaLookup m p.1).isNone)).map
    (fun p => (p.1, p.2.schema))

/-- The body of the loop of `synchronize_database` (lines 144-153) for one
table: log the start line, compute the diff (its exception propagates
uncaught), log a warning when any of the three lists is non-empty, then
synchronize the rows. -/
def syncOneTable (st : SyncState) (table_name : String) :
    SyncState × Except Err Unit :=
  match get_table_differences
      { st with log := st.log
          ++ [LogEntry.info ("Начало синхронизации таблицы " ++ table_name)] }
      table_name with
  | (st2, .error e) => (st2, .error e)
  | (st2, .ok differences) =>
    synchronize_table
      (if !differences.new_columns.isEmpty
          || !differences.modified_columns.isEmpty
          || !differences.removed_columns.isEmpty then
        { st2 with log := st2.log
            ++ [LogEntry.warning ("Обнаружены различия в структуре таблицы "
                 ++ table_name ++ ": " ++ diffStr differences)] }
      else st2)
      table_name

/-- The loop of lines 144-153 over the table list: fail-fast, an error stops
the remaining tables. -/
def syncTables : SyncState → List String → SyncState × Except Err Unit
  | st, [] => (st, .ok ())
  | st, t :: rest =>
    match syncOneTable st t with
    | (st2, .error e) => (st2, .error e)
    | (st2, .ok _) => syncTables st2 rest

/-- `synchronize_database` (lines 134-153): with no list, reflect the whole
source schema and take the keys of the source `MetaData`; then run the
per-table loop. -/
def synchronize_database (st : SyncState) (tables : Option (List String)) :
    SyncState × Except Err Unit :=
  match tables with
  | none =>
    syncTables
      { st with source_metadata := metadataReflectAll st.source_metadata st.sourceDB }
      ((metadataReflectAll st.source_metadata st.sourceDB).map (fun p => p.1))
  | some ts => syncTables st ts

/-! Concrete fixtures used by witnesses and counterexamples.  `fxSchemaT` and
`fxRowsT` are the specification's own scenario `t(id PK, name)` with rows
`(1,"a"), (2,"b")`; `fxStDup` is a source table without a primary key holding
two identical rows. -/

def fxColId : ColumnDef := ⟨"id", "INTEGER", true, false, false, false, none, none⟩

def fxColName : ColumnDef := ⟨"name", "TEXT", false, true, false, false, none, none⟩

def fxSchemaT : List ColumnDef := [fxColId, fxColName]

def fxRowsT : List Row :=
  [[("id", Value.vInt 1), ("name", Value.vStr "a")],
   [("id", Value.vInt 2), ("name", Value.vStr "b")]]

def fxStT : SyncState := ⟨[("t", ⟨fxSchemaT, fxRowsT⟩)], [], [], [], []⟩

def fxColX : ColumnDef := ⟨"x", "INTEGER", false, true, false, false, none, none⟩

def fxDupRows : List Row := [[("x", Value.vInt 1)], [("x", Value.vInt 1)]]

def fxStDup : SyncState := ⟨[("t", ⟨[fxColX], fxDupRows⟩)], [], [], [], []⟩

def fxEmptyState : SyncState := ⟨[], [], [], [], []⟩

def fxStBoth : SyncState :=
  ⟨[("t", ⟨fxSchemaT, fxRowsT⟩)], [("t", ⟨fxSchemaT, []⟩)], [], [], []⟩

def fxColA : ColumnDef := ⟨"a", "INTEGER", true, false, false, false, none, none⟩

def fxColB : ColumnDef := ⟨"b", "INTEGER", true, false, false, false, none, none⟩

def fxTsComposite : List ColumnDef := [fxColA, fxColB]

def fxSrcRowC : Row := [("a", Value.vInt 1), ("b", Value.vInt 2)]

def fxTgtRowC : Row := [("a", Value.vInt 1), ("b", Value.vInt 3)]

/-! Helper lemmas about the embedded operations. -/

theorem copyColumn_id (c : ColumnDef) : copyColumn c = c := rfl

theorem map_copyColumn (l : List ColumnDef) : l.map copyColumn = l := by
  simp [show copyColumn = id from funext copyColumn_id]

theorem dbTable_append {db : Database} {n : String} {td : TableData}
    (l : Database) (h : dbTable db n = some td) : dbTable (db ++ l) n = some td := by
  unfold dbTable at h ⊢
  rw [List.find?_append]
  rcases hf : db.find? (fun p => p.1 == n) with _ | p
  · rw [hf] at h; simp at h
  · rw [hf] at h ⊢; rw [Option.or_some]; exact h

theorem dbTable_append_self {db : Database} {n : String} (td : TableData)
    (h : dbTable db n = none) : dbTable (db ++ [(n, td)]) n = some td := by
  unfold dbTable at h ⊢
  rw [List.find?_append]
  rcases hf : db.find? (fun p => p.1 == n) with _ | p
  · rw [hf, Option.none_or]; simp [List.find?]
  · rw [hf] at h; simp at h

theorem createIfAbsent_of_absent {db : Database} {t : String}
    (ss : List ColumnDef) (h : dbTable db t = none) :
    createIfAbsent db t ss = db ++ [(t, ⟨ss.map copyColumn, []⟩)] := by
  simp [createIfAbsent, h]

theorem dbTable_createIfAbsent {db : Database} {n t : String} {td : TableData}
    (ss : List ColumnDef) (h : dbTable db n = some td) :
    dbTable (createIfAbsent db t ss) n = some td := by
  unfold createIfAbsent
  rcases ht : dbTable db t with _ | td2
  · simpa [ht] using dbTable_append _ h
  · simpa [ht] using h

theorem dbTable_dbSetRows (db : Database) (t : String) (rs : List Row) (n : String) :
    dbTable (dbSetRows db t rs) n
      = (dbTable db n).map (fun td => if n == t then { td with rows := rs } else td) := by
  induction db with
  | nil => rfl
  | cons p rest ih =>
    rcases p with ⟨k, td0⟩
    by_cases hkn : k = n
    · subst hkn
      by_cases hkt : k = t
      · subst hkt
        simp [dbSetRows, dbTable, List.find?]
      · simp [dbSetRows, dbTable, List.find?, hkt, Ne.symm hkt]
    · have hb : (k == n) = false := beq_eq_false_iff_ne.mpr hkn
      by_cases hkt : k = t
      · subst hkt
        simpa [dbSetRows, dbTable, List.find?, hb] using ih
      · simpa [dbSetRows, dbTable, List.find?, hb, hkt] using ih

theorem dbTable_dbSetRows_schema (db : Database) (t : String) (rs : List Row) (n : String) :
    (dbTable (dbSetRows db t rs) n).map TableData.schema
      = (dbTable db n).map TableData.schema := by
  rw [dbTable_dbSetRows]
  rcases dbTable db n with _ | td
  · rfl
  · by_cases h : n = t <;> simp [h]

theorem dbTable_dbSetRows_ne {n t : String} (db : Database) (rs : List Row)
    (h : n ≠ t) : dbTable (dbSetRows db t rs) n = dbTable db n := by
  rw [dbTable_dbSetRows]
  rcases dbTable db n with _ | td <;> simp [h]

theorem insertValues_ok {ts : List ColumnDef} {nr : Row} (cur : List Row)
    (h : ∀ p ∈ nr, hasCol ts p.1 = true) :
    insertValues ts cur nr = .ok (cur ++ [nr]) := by
  unfold insertValues
  have hn : nr.find? (fun p => !(hasCol ts p.1)) = none := by
    rw [List.find?_eq_none]
    intro p hp
    simp [h p hp]
  rw [hn]

theorem insertValues_eq {ts : List ColumnDef} {cur cur2 : List Row} {nr : Row}
    (h : insertValues ts cur nr = .ok cur2) : cur2 = cur ++ [nr] := by
  unfold insertValues at h
  rcases hf : nr.find? (fun p => !(hasCol ts p.1)) with _ | p
  · rw [hf] at h; injection h with h; exact h.symm
  · rw [hf] at h; cases h

theorem evalCondition_nil (r : Row) : evalCondition [] r = true := rfl

theorem find?_evalCondition_nil (cur : List Row) :
    cur.find? (fun r => evalCondition [] r) = cur.head? := by
  cases cur with
  | nil => rfl
  | cons h tl => simp [List.find?, evalCondition]

theorem buildPkCondition_eval {ts : List ColumnDef} :
    ∀ (pk : List String) (r : Row) (cond : List (String × Value)),
    buildPkCondition ts pk r = .ok cond →
    ∀ tgt : Row, (evalCondition cond tgt = true ↔
      ∀ c ∈ pk, ∃ v, getattrOpt r c = some v ∧ getattrOpt tgt c = some v) := by
  intro pk
  induction pk with
  | nil =>
    intro r cond h tgt
    injection h with h
    subst h
    simp [evalCondition]
  | cons c rest ih =>
    intro r cond h tgt
    unfold buildPkCondition at h
    rcases hhc : hasCol ts c with _ | _ <;> rw [hhc] at h
    · cases h
    · rcases hv : getattrOpt r c with _ | v <;> rw [hv] at h
      · cases h
      · rcases hrest : buildPkCondition ts rest r with e | cond2 <;> rw [hrest] at h
        · cases h
        · injection h with h
          subst h
          constructor
          · intro hall c2 hc2
            have := hall
            simp only [evalCondition, List.all_cons, Bool.and_eq_true] at this
            rcases this with ⟨h1, h2⟩
            rcases List.mem_cons.mp hc2 with hc2 | hc2
            · subst hc2
              refine ⟨v, hv, ?_⟩
              simpa using h1
            · exact ((ih r cond2 hrest tgt).mp (by simpa [evalCondition] using h2)) c2 hc2
          · intro hall
            simp only [evalCondition, List.all_cons, Bool.and_eq_true]
            constructor
            · rcases hall c (List.mem_cons_self c rest) with ⟨v2, hv2, htv⟩
              rw [hv] at hv2
              injection hv2 with hv2
              subst hv2
              simpa using htv
            · exact (ih r cond2 hrest tgt).mpr (fun c2 hc2 => hall c2 (List.mem_cons_of_mem c hc2))

theorem buildPkCondition_isOk {ts : List ColumnDef} :
    ∀ (pk : List String) (r : Row),
    (∀ c ∈ pk, hasCol ts c = true ∧ (getattrOpt r c).isSome) →
    ∃ cond, buildPkCondition ts pk r = .ok cond := by
  intro pk
  induction pk with
  | nil => exact fun r _ => ⟨[], rfl⟩
  | cons c rest ih =>
    intro r h
    rcases h c (List.mem_cons_self c rest) with ⟨hhc, hvs⟩
    rcases Option.isSome_iff_exists.mp hvs with ⟨v, hv⟩
    rcases ih r (fun c2 hc2 => h c2 (List.mem_cons_of_mem c hc2)) with ⟨cond2, hrest⟩
    refine ⟨(c, v) :: cond2, ?_⟩
    unfold buildPkCondition
    rw [hhc, hv, hrest]
    simp

theorem buildRecord_ok :
    ∀ (ac : List String) (r : Row),
    (∀ c ∈ ac, (getattrOpt r c).isSome) →
    ∃ nr, buildRecord r ac = .ok nr ∧ nr.map Prod.fst = ac ∧
      ∀ c, getattrOpt nr c = if c ∈ ac then getattrOpt r c else none := by
  intro ac
  induction ac with
  | nil =>
    intro r _
    exact ⟨[], rfl, rfl, fun c => by simp [getattrOpt]⟩
  | cons c0 rest ih =>
    intro r h
    rcases Option.isSome_iff_exists.mp (h c0 (List.mem_cons_self c0 rest)) with ⟨v0, hv0⟩
    rcases ih r (fun c hc => h c (List.mem_cons_of_mem c0 hc)) with ⟨nr2, hb, hkeys, hget⟩
    refine ⟨(c0, v0) :: nr2, ?_, ?_, ?_⟩
    · unfold buildRecord
      rw [hv0, hb]
    · simpa using hkeys
    · intro c
      by_cases hc : c = c0
      · subst hc
        have hhead : getattrOpt ((c, v0) :: nr2) c = some v0 := by
          simp [getattrOpt, List.find?]
        rw [hhead, if_pos (List.mem_cons_self c rest), hv0]
      · have hb2 : (c0 == c) = false := beq_eq_false_iff_ne.mpr (Ne.symm hc)
        have : getattrOpt ((c0, v0) :: nr2) c = getattrOpt nr2 c := by
          simp [getattrOpt, List.find?, hb2]
        rw [this, hget c]
        simp [List.mem_cons, hc]

theorem getattrOpt_isSome_of_mem_keys {nr : Row} {ac : List String}
    (hkeys : nr.map Prod.fst = ac) (p : String × Value) (hp : p ∈ nr) :
    p.1 ∈ ac := by
  subst hkeys
  exact List.mem_map_of_mem Prod.fst hp

theorem findCol_eq_none {cols : List ColumnDef} {n : String} :
    findCol cols n = none ↔ n ∉ cols.map ColumnDef.name := by
  unfold findCol
  rw [List.find?_eq_none]
  constructor
  · intro h hn
    rcases List.mem_map.mp hn with ⟨c, hc, hcn⟩
    exact h c hc (by simp [hcn])
  · intro h c hc hb
    exact h (List.mem_map.mpr ⟨c, hc, by simpa using hb⟩)

theorem findCol_self_of_nodup {cols : List ColumnDef}
    (hnd : (cols.map ColumnDef.name).Nodup) {c : ColumnDef} (hc : c ∈ cols) :
    findCol cols c.name = some c := by
  induction cols with
  | nil => cases hc
  | cons h0 rest ih =>
    rcases List.mem_cons.mp hc with hc | hc
    · subst hc
      unfold findCol
      exact List.find?_cons_of_pos rest (by simp)
    · have hnd2 := hnd
      simp only [List.map_cons, List.nodup_cons] at hnd2
      rcases hnd2 with ⟨hnotin, hndrest⟩
      have hne : (h0.name == c.name) = false := by
        refine beq_eq_false_iff_ne.mpr ?_
        intro heq
        exact hnotin (heq ▸ List.mem_map_of_mem ColumnDef.name hc)
      unfold findCol
      rw [List.find?_cons_of_neg rest (by simp [hne])]
      exact ih hndrest hc

theorem findCol_eq_some_name {cols : List ColumnDef} {n : String} {c : ColumnDef}
    (h : findCol cols n = some c) : c.name = n ∧ c ∈ cols := by
  constructor
  · have := List.find?_some h
    simpa using this
  · exact List.mem_of_find?_eq_some h

theorem syncRowStep_insert {ts : List ColumnDef} {pk ac : List String} {cur : List Row}
    {r : Row} {cond : List (String × Value)} {nr : Row}
    (hcond : buildPkCondition ts pk r = .ok cond)
    (hfind : cur.find? (fun row => evalCondition cond row) = none)
    (hrec : buildRecord r ac = .ok nr)
    (hins : insertValues ts cur nr = .ok (cur ++ [nr])) :
    syncRowStep ts pk ac cur r
      = .ok (cur ++ [nr],
          [LogEntry.info ("Добавлена новая запись с ключом " ++ condStr cond)]) := by
  simp only [syncRowStep, hcond, hfind, hrec, hins]

theorem syncRows_inserts {ts : List ColumnDef} {pk ac : List String}
    (hpk : ∀ c ∈ pk, hasCol ts c = true) (hac : ∀ c ∈ ac, hasCol ts c = true) :
    ∀ (srcRows cur : List Row),
    (∀ r ∈ srcRows, ∀ c : String, c ∈ pk ∨ c ∈ ac → (getattrOpt r c).isSome) →
    List.Pairwise (fun r1 r2 => ∃ c ∈ pk, getattrOpt r1 c ≠ getattrOpt r2 c) srcRows →
    (∀ r ∈ srcRows, ∀ cond, buildPkCondition ts pk r = .ok cond →
        ∀ p ∈ cur, evalCondition cond p = false) →
    ∃ logs newRows, syncRows ts pk ac cur srcRows = (logs, .ok newRows) ∧
      newRows.length = cur.length + srcRows.length := by
  intro srcRows
  induction srcRows with
  | nil =>
    intro cur _ _ _
    exact ⟨[], cur, rfl, by simp⟩
  | cons r rest ih =>
    intro cur hvals hpair hcur
    have hr_vals : ∀ c ∈ pk, hasCol ts c = true ∧ (getattrOpt r c).isSome :=
      fun c hc => ⟨hpk c hc, hvals r (List.mem_cons_self r rest) c (Or.inl hc)⟩
    rcases buildPkCondition_isOk pk r hr_vals with ⟨cond, hcond⟩
    have hfind : cur.find? (fun row => evalCondition cond row) = none := by
      rw [List.find?_eq_none]
      intro p hp
      simp [hcur r (List.mem_cons_self r rest) cond hcond p hp]
    rcases buildRecord_ok ac r
        (fun c hc => hvals r (List.mem_cons_self r rest) c (Or.inr hc)) with
      ⟨nr, hrec, hkeys, hget⟩
    have hins : insertValues ts cur nr = .ok (cur ++ [nr]) :=
      insertValues_ok cur (fun p hp => hac p.1 (getattrOpt_isSome_of_mem_keys hkeys p hp))
    have hstep := syncRowStep_insert hcond hfind hrec hins
    rcases List.pairwise_cons.mp hpair with ⟨hhead, hrest_pair⟩
    have hcur2 : ∀ r2 ∈ rest, ∀ cond2, buildPkCondition ts pk r2 = .ok cond2 →
        ∀ p ∈ cur ++ [nr], evalCondition cond2 p = false := by
      intro r2 hr2 cond2 hcond2 p hp
      rcases List.mem_append.mp hp with hp | hp
      · exact hcur r2 (List.mem_cons_of_mem r hr2) cond2 hcond2 p hp
      · have hpnr : p = nr := by simpa using hp
        rw [hpnr]
        rcases hhead r2 hr2 with ⟨c0, hc0pk, hne⟩
        cases hev : evalCondition cond2 nr with
        | false => rfl
        | true =>
          exfalso
          rcases (buildPkCondition_eval pk r2 cond2 hcond2 nr).mp hev c0 hc0pk with
            ⟨v, hv2, hvnr⟩
          rcases hr0 : getattrOpt r c0 with _ | v1
          · have := hvals r (List.mem_cons_self r rest) c0 (Or.inl hc0pk)
            rw [hr0] at this
            cases this
          · have hc0ac := hget c0
            by_cases hmem : c0 ∈ ac
            · rw [if_pos hmem, hr0] at hc0ac
              rw [hc0ac] at hvnr
              injection hvnr with hvnr
              subst hvnr
              exact hne (by rw [hr0, hv2])
            · rw [if_neg hmem] at hc0ac
              rw [hc0ac] at hvnr
              cases hvnr
    have hvals2 : ∀ r2 ∈ rest, ∀ c : String, c ∈ pk ∨ c ∈ ac → (getattrOpt r2 c).isSome :=
      fun r2 hr2 => hvals r2 (List.mem_cons_of_mem r hr2)
    rcases ih (cur ++ [nr]) hvals2 hrest_pair hcur2 with ⟨logs2, newRows, hrecrest, hlen⟩
    refine ⟨[LogEntry.info ("Добавлена новая запись с ключом " ++ condStr cond)] ++ logs2,
      newRows, ?_, ?_⟩
    · unfold syncRows
      rw [hstep]
      dsimp only
      rw [hrecrest]
    · rw [hlen]
      simp
      omega

theorem get_table_differences_frame (st : SyncState) (t : String) :
    (get_table_differences st t).1.sourceDB = st.sourceDB ∧
    (get_table_differences st t).1.targetDB = st.targetDB ∧
    (get_table_differences st t).1.log = st.log := by
  unfold get_table_differences
  split
  · exact ⟨rfl, rfl, rfl⟩
  · split
    · exact ⟨rfl, rfl, rfl⟩
    · exact ⟨rfl, rfl, rfl⟩

theorem syncTableStage3_log (st : SyncState) (t : String) (ss tsch : List ColumnDef) :
    ∃ d, (syncTableStage3 st t ss tsch).1.log = st.log ++ d := by
  unfold syncTableStage3
  split
  · exact ⟨[], (List.append_nil _).symm⟩
  · split
    · exact ⟨[], (List.append_nil _).symm⟩
    · split
      · exact ⟨_, rfl⟩
      · rename_i logs newRows heq
        exact ⟨logs ++ [LogEntry.info ("Таблица " ++ t ++ " успешно синхронизирована")],
          by simp⟩

theorem syncTableStage2_log (st : SyncState) (t : String) (ss : List ColumnDef) :
    ∃ d, (syncTableStage2 st t ss).1.log = st.log ++ d := by
  unfold syncTableStage2
  split
  · exact ⟨[], (List.append_nil _).symm⟩
  · exact syncTableStage3_log _ _ _ _

theorem synchronize_table_inner_log (st : SyncState) (t : String) :
    ∃ d, (synchronize_table_inner st t).1.log = st.log ++ d := by
  unfold synchronize_table_inner
  split
  · exact ⟨[], (List.append_nil _).symm⟩
  · exact syncTableStage2_log _ _ _

theorem synchronize_table_log (st : SyncState) (t : String) :
    ∃ d, (synchronize_table st t).1.log = st.log ++ d := by
  unfold synchronize_table
  split
  · rename_i st2 e heq
    rcases synchronize_table_inner_log st t with ⟨d, hd⟩
    rw [heq] at hd
    have hd2 : st2.log = st.log ++ d := hd
    exact ⟨d ++ [LogEntry.error (syncErrMsg t e)], by simp [hd2]⟩
  · rename_i st2 heq
    rcases synchronize_table_inner_log st t with ⟨d, hd⟩
    rw [heq] at hd
    exact ⟨d, hd⟩

theorem synchronize_table_error_log {st : SyncState} {t : String} {st2 : SyncState}
    {e : Err} (h : synchronize_table st t = (st2, .error e)) :
    ∃ d, st2.log = st.log ++ d ++ [LogEntry.error (syncErrMsg t e)] := by
  unfold synchronize_table at h
  split at h
  · rename_i st3 e2 heq
    simp only [Prod.mk.injEq] at h
    rcases h with ⟨h1, h2⟩
    injection h2 with h2
    rcases synchronize_table_inner_log st t with ⟨d, hd⟩
    rw [heq] at hd
    have hd2 : st3.log = st.log ++ d := hd
    refine ⟨d, ?_⟩
    rw [← h1]
    simp [hd2, h2]
  · simp at h

theorem syncTableStage3_error_targetDB {st : SyncState} {t : String}
    {ss tsch : List ColumnDef} {st2 : SyncState} {e : Err}
    (h : syncTableStage3 st t ss tsch = (st2, .error e)) : st2.targetDB = st.targetDB := by
  unfold syncTableStage3 at h
  split at h
  · simp only [Prod.mk.injEq] at h
    rw [← h.1]
  · split at h
    · simp only [Prod.mk.injEq] at h
      rw [← h.1]
    · split at h
      · simp only [Prod.mk.injEq] at h
        rw [← h.1]
      · simp at h

theorem syncTableStage2_error_targetDB {st : SyncState} {t : String}
    {ss : List ColumnDef} {st2 : SyncState} {e : Err}
    (h : syncTableStage2 st t ss = (st2, .error e)) : st2.targetDB = st.targetDB := by
  unfold syncTableStage2 at h
  split at h
  · simp only [Prod.mk.injEq] at h
    rw [← h.1]
  · have h3 := syncTableStage3_error_targetDB h
    exact h3

theorem synchronize_table_inner_error_targetDB {st : SyncState} {t : String}
    {st2 : SyncState} {e : Err}
    (h : synchronize_table_inner st t = (st2, .error e)) :
    st2.targetDB = st.targetDB ∨ ∃ ss, st2.targetDB = createIfAbsent st.targetDB t ss := by
  unfold synchronize_table_inner at h
  split at h
  · simp only [Prod.mk.injEq] at h
    left
    rw [← h.1]
  · rename_i ss sm heq
    right
    have h3 := syncTableStage2_error_targetDB h
    exact ⟨ss, h3⟩

theorem synchronize_table_error_targetDB {st : SyncState} {t : String}
    {st2 : SyncState} {e : Err}
    (h : synchronize_table st t = (st2, .error e)) :
    st2.targetDB = st.targetDB ∨ ∃ ss, st2.targetDB = createIfAbsent st.targetDB t ss := by
  unfold synchronize_table at h
  split at h
  · rename_i st3 e2 heq
    simp only [Prod.mk.injEq] at h
    rcases h with ⟨h1, h2⟩
    have hi := synchronize_table_inner_error_targetDB heq
    rw [← h1]
    exact hi
  · simp at h

theorem synchronize_table_reflect_fail {st : SyncState} {t : String}
    (hm : metaLookup st.source_metadata t = none)
    (hd : dbTable st.sourceDB t = none) :
    synchronize_table st t
      = ({ st with log := st.log ++ [LogEntry.error (syncErrMsg t (Err.noSuchTable t))] },
         .error (Err.noSuchTable t)) := by
  have hr : reflectTable st.source_metadata st.sourceDB t = .error (.noSuchTable t) := by
    unfold reflectTable
    rw [hm, hd]
  unfold synchronize_table synchronize_table_inner
  rw [hr]

theorem syncTableStage3_targetDB (st : SyncState) (t : String) (ss tsch : List ColumnDef) :
    (syncTableStage3 st t ss tsch).1.targetDB = st.targetDB ∨
    ∃ rs, (syncTableStage3 st t ss tsch).1.targetDB = dbSetRows st.targetDB t rs := by
  unfold syncTableStage3
  split
  · left; rfl
  · split
    · left; rfl
    · split
      · left; rfl
      · rename_i logs newRows heq
        right
        exact ⟨newRows, rfl⟩

theorem syncTableStage2_targetDB (st : SyncState) (t : String) (ss : List ColumnDef) :
    (syncTableStage2 st t ss).1.targetDB = st.targetDB ∨
    ∃ rs, (syncTableStage2 st t ss).1.targetDB = dbSetRows st.targetDB t rs := by
  unfold syncTableStage2
  split
  · left; rfl
  · rename_i tsch tm heq
    exact syncTableStage3_targetDB _ _ _ _

theorem synchronize_table_inner_targetDB (st : SyncState) (t : String) :
    (∃ e, reflectTable st.source_metadata st.sourceDB t = .error e ∧
       (synchronize_table_inner st t).1.targetDB = st.targetDB) ∨
    (∃ ss sm, reflectTable st.source_metadata st.sourceDB t = .ok (ss, sm) ∧
       ((synchronize_table_inner st t).1.targetDB = createIfAbsent st.targetDB t ss ∨
        ∃ rs, (synchronize_table_inner st t).1.targetDB
          = dbSetRows (createIfAbsent st.targetDB t ss) t rs)) := by
  unfold synchronize_table_inner
  split
  · rename_i e heq
    left
    exact ⟨e, heq, rfl⟩
  · rename_i ss sm heq
    right
    refine ⟨ss, sm, heq, ?_⟩
    exact syncTableStage2_targetDB _ _ _

theorem synchronize_table_targetDB (st : SyncState) (t : String) :
    (∃ e, reflectTable st.source_metadata st.sourceDB t = .error e ∧
       (synchronize_table st t).1.targetDB = st.targetDB) ∨
    (∃ ss sm, reflectTable st.source_metadata st.sourceDB t = .ok (ss, sm) ∧
       ((synchronize_table st t).1.targetDB = createIfAbsent st.targetDB t ss ∨
        ∃ rs, (synchronize_table st t).1.targetDB
          = dbSetRows (createIfAbsent st.targetDB t ss) t rs)) := by
  have h := synchronize_table_inner_targetDB st t
  unfold synchronize_table
  split
  · rename_i st2 e heq
    rw [heq] at h
    exact h
  · rename_i st2 heq
    rw [heq] at h
    exact h

theorem reflectTable_ok_of_db (m : Metadata) {db : Database} {t : String}
    {td : TableData} (h : dbTable db t = some td) :
    ∃ sc sm, reflectTable m db t = .ok (sc, sm) := by
  unfold reflectTable
  cases hm : metaLookup m t with
  | some cols => exact ⟨cols, m, rfl⟩
  | none =>
    rw [h]
    exact ⟨td.schema, _, rfl⟩

theorem syncTables_cons_error {st : SyncState} {t : String} (rest : List String)
    {st2 : SyncState} {e : Err} (h : syncOneTable st t = (st2, .error e)) :
    synchronize_database st (some (t :: rest)) = (st2, .error e) := by
  unfold synchronize_database syncTables
  rw [h]

theorem syncTables_cons_ok {st : SyncState} {t : String} (rest : List String)
    {st2 : SyncState} (h : syncOneTable st t = (st2, .ok ())) :
    synchronize_database st (some (t :: rest)) = synchronize_database st2 (some rest) := by
  show (match syncOneTable st t with
    | (st3, Except.error e) => (st3, Except.error e)
    | (st3, Except.ok _) => syncTables st3 rest) = syncTables st2 rest
  rw [h]

theorem metadataReflectAll_nil (db : Database) :
    metadataReflectAll [] db = db.map (fun p => (p.1, p.2.schema)) := by
  unfold metadataReflectAll
  have hf : db.filter (fun p => (metaLookup ([] : Metadata) p.1).isNone) = db := by
    induction db with
    | nil => rfl
    | cons p rest ih => simp only [List.filter_cons] at ih ⊢; rw [ih]; rfl
  rw [hf]
  rfl

theorem syncOneTable_log (st : SyncState) (t : String) :
    ∃ d, (syncOneTable st t).1.log
      = st.log ++ LogEntry.info ("Начало синхронизации таблицы " ++ t) :: d := by
  unfold syncOneTable
  split
  · rename_i st2 e heq
    have hf := (get_table_differences_frame
      { st with log := st.log
          ++ [LogEntry.info ("Начало синхронизации таблицы " ++ t)] } t).2.2
    rw [heq] at hf
    exact ⟨[], by simpa using hf⟩
  · rename_i st2 diffs heq
    have hf := (get_table_differences_frame
      { st with log := st.log
          ++ [LogEntry.info ("Начало синхронизации таблицы " ++ t)] } t).2.2
    rw [heq] at hf
    have hf2 : st2.log = st.log ++ [LogEntry.info ("Начало синхронизации таблицы " ++ t)] := hf
    split
    · rcases synchronize_table_log
        { st2 with log := st2.log
            ++ [LogEntry.warning ("Обнаружены различия в структуре таблицы " ++ t
                 ++ ": " ++ diffStr diffs)] } t with ⟨d2, hd2⟩
      have hd3 : (synchronize_table
          { st2 with log := st2.log
              ++ [LogEntry.warning ("Обнаружены различия в структуре таблицы " ++ t
                   ++ ": " ++ diffStr diffs)] } t).1.log
          = st2.log ++ [LogEntry.warning ("Обнаружены различия в структуре таблицы " ++ t
               ++ ": " ++ diffStr diffs)] ++ d2 := hd2
      refine ⟨[LogEntry.warning ("Обнаружены различия в структуре таблицы " ++ t
        ++ ": " ++ diffStr diffs)] ++ d2, ?_⟩
      rw [hd3, hf2]
      simp
    · rcases synchronize_table_log st2 t with ⟨d2, hd2⟩
      refine ⟨d2, ?_⟩
      rw [hd2, hf2]
      simp

/-- C2: the schema diff returns exactly three sets of column names: added
(new_columns) are the names present in the source and absent from the target,
modified are the names present in both whose declared-type string
representations differ, removed are the names present in the target and
absent from the source; for two identical schemas all three are empty.  The
membership characterizations mention only which names occur where, so the
result is independent of column order. -/
theorem c2_schema_diff :
    (∀ (sc tc : List ColumnDef) (c : String),
       c ∈ (diffColumns sc tc).new_columns
         ↔ c ∈ sc.map ColumnDef.name ∧ c ∉ tc.map ColumnDef.name) ∧
    (∀ (sc tc : List ColumnDef) (c : String), (sc.map ColumnDef.name).Nodup →
       (c ∈ (diffColumns sc tc).modified_columns
         ↔ ∃ s t2, findCol sc c = some s ∧ findCol tc c = some t2
             ∧ s.type ≠ t2.type)) ∧
    (∀ (sc tc : List ColumnDef) (c : String),
       c ∈ (diffColumns sc tc).removed_columns
         ↔ c ∈ tc.map ColumnDef.name ∧ c ∉ sc.map ColumnDef.name) ∧
    (∀ sc : List ColumnDef, (sc.map ColumnDef.name).Nodup →
       diffColumns sc sc = ⟨[], [], []⟩) := by
  refine ⟨?_, ?_, ?_, ?_⟩
  · intro sc tc c
    simp only [diffColumns]
    constructor
    · intro hmem
      rcases List.mem_map.mp hmem with ⟨cd, hcdf, hname⟩
      rcases List.mem_filter.mp hcdf with ⟨hcd, hpred⟩
      subst hname
      exact ⟨List.mem_map_of_mem _ hcd,
        findCol_eq_none.mp (Option.isNone_iff_eq_none.mp hpred)⟩
    · rintro ⟨hmem, hnot⟩
      rcases List.mem_map.mp hmem with ⟨cd, hcd, hname⟩
      subst hname
      exact List.mem_map_of_mem _ (List.mem_filter.mpr
        ⟨hcd, Option.isNone_iff_eq_none.mpr (findCol_eq_none.mpr hnot)⟩)
  · intro sc tc c hnd
    simp only [diffColumns]
    constructor
    · intro hmem
      rcases List.mem_map.mp hmem with ⟨cd, hcdf, hname⟩
      rcases List.mem_filter.mp hcdf with ⟨hcd, hpred⟩
      subst hname
      rcases hf : findCol tc cd.name with _ | t2
      · rw [hf] at hpred; cases hpred
      · rw [hf] at hpred
        refine ⟨cd, t2, findCol_self_of_nodup hnd hcd, rfl, ?_⟩
        simpa using hpred
    · rintro ⟨s, t2, hfs, hft, hty⟩
      obtain ⟨hname, hmem⟩ := findCol_eq_some_name hfs
      subst hname
      refine List.mem_map_of_mem _ (List.mem_filter.mpr ⟨hmem, ?_⟩)
      rw [hft]
      simpa using hty
  · intro sc tc c
    simp only [diffColumns]
    constructor
    · intro hmem
      rcases List.mem_map.mp hmem with ⟨cd, hcdf, hname⟩
      rcases List.mem_filter.mp hcdf with ⟨hcd, hpred⟩
      subst hname
      exact ⟨List.mem_map_of_mem _ hcd,
        findCol_eq_none.mp (Option.isNone_iff_eq_none.mp hpred)⟩
    · rintro ⟨hmem, hnot⟩
      rcases List.mem_map.mp hmem with ⟨cd, hcd, hname⟩
      subst hname
      exact List.mem_map_of_mem _ (List.mem_filter.mpr
        ⟨hcd, Option.isNone_iff_eq_none.mpr (findCol_eq_none.mpr hnot)⟩)
  · intro sc hnd
    have h1 : (sc.filter (fun c => (findCol sc c.name).isNone)).map
        (fun c => c.name) = [] := by
      rw [List.map_eq_nil_iff, List.filter_eq_nil_iff]
      intro c hc
      simp [findCol_self_of_nodup hnd hc]
    have h2 : (sc.filter (fun c =>
        match findCol sc c.name with
        | some t => c.type != t.type
        | none => false)).map (fun c => c.name) = [] := by
      rw [List.map_eq_nil_iff, List.filter_eq_nil_iff]
      intro c hc
      simp [findCol_self_of_nodup hnd hc]
    simp only [diffColumns]
    rw [h1, h2]

/-- Witness for C2: at the specification's schema `t(id PK, name)` compared
with itself, the diff is three empty sets. -/
theorem c2_witness : diffColumns fxSchemaT fxSchemaT = ⟨[], [], []⟩ :=
  c2_schema_diff.2.2.2 fxSchemaT (by decide)

/-- C4: the lookup predicate built by `synchronize_table` is the conjunction
of equalities over all primary-key columns: a target row satisfies it exactly
when it agrees with the source row on every key column (all values present),
and disagreement on even one key column — a proper-subset match for a
composite key — makes the predicate false. -/
theorem c4_pk_matching :
    (∀ (ts : List ColumnDef) (pk : List String) (r : Row) cond,
       buildPkCondition ts pk r = .ok cond →
       ∀ tgt : Row, (evalCondition cond tgt = true
         ↔ ∀ c ∈ pk, ∃ v, getattrOpt r c = some v ∧ getattrOpt tgt c = some v)) ∧
    (∀ (ts : List ColumnDef) (pk : List String) (r : Row) cond,
       buildPkCondition ts pk r = .ok cond →
       ∀ c0 ∈ pk, ∀ tgt : Row, getattrOpt tgt c0 ≠ getattrOpt r c0 →
         evalCondition cond tgt = false) := by
  refine ⟨fun ts pk r cond h tgt => buildPkCondition_eval pk r cond h tgt, ?_⟩
  intro ts pk r cond h c0 hc0 tgt hne
  cases hev : evalCondition cond tgt with
  | false => rfl
  | true =>
    exfalso
    rcases (buildPkCondition_eval pk r cond h tgt).mp hev c0 hc0 with ⟨v, hv, htv⟩
    exact hne (by rw [hv, htv])

/-- Witness for C4: a two-column composite key `(a, b)`; a target row that
agrees on `a` only does not satisfy the predicate. -/
theorem c4_witness :
    evalCondition [("a", Value.vInt 1), ("b", Value.vInt 2)] fxTgtRowC = false :=
  c4_pk_matching.2 fxTsComposite ["a", "b"] fxSrcRowC
    [("a", Value.vInt 1), ("b", Value.vInt 2)] (by rfl) "b" (by decide)
    fxTgtRowC (by decide)

/-- C10: with no primary-key columns the built condition is the empty
conjunction, which is vacuously true, so the lookup returns the first target
row when one exists; whether the source row is inserted then depends only on
the comparison with that first row (equal: nothing, different: append), and
with no target rows the row is inserted. -/
theorem c10_empty_pk :
    (∀ (ts : List ColumnDef) (r : Row), buildPkCondition ts [] r = .ok []) ∧
    (∀ cur : List Row, cur.find? (fun row => evalCondition [] row) = cur.head?) ∧
    (∀ (ts : List ColumnDef) (ac : List String) (r r0 : Row) (tl : List Row),
       records_match ac r r0 = .ok true →
       syncRowStep ts [] ac (r0 :: tl) r = .ok (r0 :: tl, [])) ∧
    (∀ (ts : List ColumnDef) (ac : List String) (r r0 : Row) (tl : List Row)
       (nr : Row) (cur2 : List Row),
       records_match ac r r0 = .ok false → buildRecord r ac = .ok nr →
       insertValues ts (r0 :: tl) nr = .ok cur2 →
       syncRowStep ts [] ac (r0 :: tl) r
         = .ok (cur2, [LogEntry.info ("Найдены различия в записи с ключом "
             ++ condStr [] ++ ". Создана новая запись.")])) := by
  refine ⟨fun ts r => rfl, find?_evalCondition_nil, ?_, ?_⟩
  · intro ts ac r r0 tl hm
    have hfind : (r0 :: tl).find? (fun row => evalCondition [] row) = some r0 := by
      rw [find?_evalCondition_nil]
      rfl
    simp only [syncRowStep, buildPkCondition, hfind, hm]
  · intro ts ac r r0 tl nr cur2 hm hb hins
    have hfind : (r0 :: tl).find? (fun row => evalCondition [] row) = some r0 := by
      rw [find?_evalCondition_nil]
      rfl
    simp only [syncRowStep, buildPkCondition, hfind, hm, hb, hins]

/-- Witness for C10: a one-column, key-less table; the source row equals the
single target row, so nothing is inserted. -/
theorem c10_witness :
    syncRowStep [fxColX] [] ["x"] [[("x", Value.vInt 1)]] [("x", Value.vInt 1)]
      = .ok ([[("x", Value.vInt 1)]], []) :=
  c10_empty_pk.2.2.1 [fxColX] ["x"] [("x", Value.vInt 1)] [("x", Value.vInt 1)] []
    (by rfl)

/-- C1 counterexample: a source table with no primary key holding two
identical rows `(x=1), (x=1)`; `synchronize_table` into an empty target
succeeds but inserts only one row for the two source rows (the second row
matches the row just inserted and is equal on all columns), refuting "syncing
into an empty target inserts exactly one row per source row". -/
theorem c1_counterexample :
    (synchronize_table fxStDup "t").2 = .ok ()
    ∧ (synchronize_table fxStDup "t").1.targetDB.map (fun p => p.2.rows.length) = [1]
    ∧ fxDupRows.length = 2 :=
  ⟨rfl, rfl, rfl⟩

/-- C1 (amended): per-row reconciliation is Variant B — on a key match with
all source columns equal nothing is written; on a key match with some column
different the full source record is appended; with no match the full source
record is appended.  Syncing into an empty target inserts exactly one row per
source row provided the source rows are pairwise distinguished on some
primary-key column (in particular, any primary-key-respecting source); a
source row whose first key-matching, already-inserted row equals it on all
source columns inserts nothing. -/
theorem c1_variant_b_reconciliation :
    (∀ (ts : List ColumnDef) (pk ac : List String) (cur : List Row) (r : Row)
       cond (ex : Row),
       buildPkCondition ts pk r = .ok cond →
       cur.find? (fun row => evalCondition cond row) = some ex →
       records_match ac r ex = .ok true →
       syncRowStep ts pk ac cur r = .ok (cur, [])) ∧
    (∀ (ts : List ColumnDef) (pk ac : List String) (cur : List Row) (r : Row)
       cond (ex nr : Row) (cur2 : List Row),
       buildPkCondition ts pk r = .ok cond →
       cur.find? (fun row => evalCondition cond row) = some ex →
       records_match ac r ex = .ok false →
       buildRecord r ac = .ok nr →
       insertValues ts cur nr = .ok cur2 →
       syncRowStep ts pk ac cur r
         = .ok (cur2, [LogEntry.info ("Найдены различия в записи с ключом "
             ++ condStr cond ++ ". Создана новая запись.")])
         ∧ cur2 = cur ++ [nr]) ∧
    (∀ (ts : List ColumnDef) (pk ac : List String) (cur : List Row) (r : Row)
       cond (nr : Row) (cur2 : List Row),
       buildPkCondition ts pk r = .ok cond →
       cur.find? (fun row => evalCondition cond row) = none →
       buildRecord r ac = .ok nr →
       insertValues ts cur nr = .ok cur2 →
       syncRowStep ts pk ac cur r
         = .ok (cur2, [LogEntry.info ("Добавлена новая запись с ключом "
             ++ condStr cond)])
         ∧ cur2 = cur ++ [nr]) ∧
    (∀ (ts : List ColumnDef) (pk ac : List String) (srcRows : List Row),
       (∀ c ∈ pk, hasCol ts c = true) →
       (∀ c ∈ ac, hasCol ts c = true) →
       (∀ r ∈ srcRows, ∀ c ∈ pk, (getattrOpt r c).isSome) →
       (∀ r ∈ srcRows, ∀ c ∈ ac, (getattrOpt r c).isSome) →
       List.Pairwise (fun r1 r2 => ∃ c ∈ pk, getattrOpt r1 c ≠ getattrOpt r2 c)
         srcRows →
       ∃ logs newRows, syncRows ts pk ac [] srcRows = (logs, .ok newRows)
         ∧ newRows.length = srcRows.length) := by
  refine ⟨?_, ?_, ?_, ?_⟩
  · intro ts pk ac cur r cond ex hcond hfind hm
    simp only [syncRowStep, hcond, hfind, hm]
  · intro ts pk ac cur r cond ex nr cur2 hcond hfind hm hrec hins
    refine ⟨?_, insertValues_eq hins⟩
    simp only [syncRowStep, hcond, hfind, hm, hrec, hins]
  · intro ts pk ac cur r cond nr cur2 hcond hfind hrec hins
    refine ⟨?_, insertValues_eq hins⟩
    simp only [syncRowStep, hcond, hfind, hrec, hins]
  · intro ts pk ac srcRows hpk hac hpkv hacv hpair
    have hvals : ∀ r ∈ srcRows, ∀ c : String, c ∈ pk ∨ c ∈ ac →
        (getattrOpt r c).isSome :=
      fun r hr c hc => hc.elim (hpkv r hr c) (hacv r hr c)
    have hcur : ∀ r ∈ srcRows, ∀ cond, buildPkCondition ts pk r = .ok cond →
        ∀ p ∈ ([] : List Row), evalCondition cond p = false :=
      fun r _ cond _ p hp => absurd hp (List.not_mem_nil p)
    rcases syncRows_inserts hpk hac srcRows [] hvals hpair hcur with
      ⟨logs, newRows, hrun, hlen⟩
    exact ⟨logs, newRows, hrun, by simpa using hlen⟩

/-- Witness for C1 at the specification's scenario: source `t(id PK, name)`
with rows `(1,"a"), (2,"b")` into an empty target inserts exactly two rows. -/
theorem c1_witness :
    ∃ logs newRows, syncRows fxSchemaT ["id"] ["id", "name"] [] fxRowsT
      = (logs, .ok newRows) ∧ newRows.length = fxRowsT.length :=
  c1_variant_b_reconciliation.2.2.2 fxSchemaT ["id"] ["id", "name"] fxRowsT
    (by decide) (by decide) (by decide) (by decide) (by decide)

/-- C3: when the target store has no table of the given name,
`synchronize_table` creates one whose columns are copies of the source schema
(all eight copied attributes, hence the very same column records); the schema
of any table already present in the target is never altered by a call, so a
second call with the table present changes no schema. -/
theorem c3_provisioning :
    (∀ (st : SyncState) (t : String) (ss : List ColumnDef) (sm : Metadata),
       reflectTable st.source_metadata st.sourceDB t = .ok (ss, sm) →
       dbTable st.targetDB t = none →
       ∃ td, dbTable (synchronize_table st t).1.targetDB t = some td
         ∧ td.schema = ss) ∧
    (∀ (st : SyncState) (t n : String) (td : TableData),
       dbTable st.targetDB n = some td →
       ∃ td2, dbTable (synchronize_table st t).1.targetDB n = some td2
         ∧ td2.schema = td.schema) := by
  constructor
  · intro st t ss sm hok habs
    rcases synchronize_table_targetDB st t with ⟨e, herr, _⟩ | ⟨ss2, sm2, hok2, hcase⟩
    · rw [hok] at herr
      cases herr
    · rw [hok] at hok2
      injection hok2 with h1
      injection h1 with hss hsm
      subst hss
      subst hsm
      have hcreate := createIfAbsent_of_absent ss habs
      have hbase : dbTable (createIfAbsent st.targetDB t ss) t
          = some ⟨ss.map copyColumn, []⟩ := by
        rw [hcreate]
        exact dbTable_append_self _ habs
      rcases hcase with hc | ⟨rs, hc⟩
      · rw [hc]
        exact ⟨⟨ss.map copyColumn, []⟩, hbase, map_copyColumn ss⟩
      · rw [hc, dbTable_dbSetRows, hbase]
        refine ⟨⟨ss.map copyColumn, rs⟩, by simp, map_copyColumn ss⟩
  · intro st t n td htd
    rcases synchronize_table_targetDB st t with ⟨e, herr, heq⟩ | ⟨ss, sm, hok, hcase⟩
    · rw [heq]
      exact ⟨td, htd, rfl⟩
    · have hpres := @dbTable_createIfAbsent st.targetDB n t td ss htd
      rcases hcase with hc | ⟨rs, hc⟩
      · rw [hc]
        exact ⟨td, hpres, rfl⟩
      · rw [hc, dbTable_dbSetRows, hpres]
        refine ⟨if (n == t) = true then { td with rows := rs } else td, rfl, ?_⟩
        cases hnt : (n == t) <;> simp [hnt]

/-- Witness for C3: a fresh synchronizer whose target has no table `t`;
after `synchronize_table` the target has `t` with exactly the source
schema. -/
theorem c3_witness :
    ∃ td, dbTable (synchronize_table fxStT "t").1.targetDB "t" = some td
      ∧ td.schema = fxSchemaT :=
  c3_provisioning.1 fxStT "t" fxSchemaT [("t", fxSchemaT)] (by rfl) (by rfl)

theorem get_table_differences_target_missing {st : SyncState} {t : String}
    {sc : List ColumnDef} {sm : Metadata}
    (hok : reflectTable st.source_metadata st.sourceDB t = .ok (sc, sm))
    (hm : metaLookup st.target_metadata t = none)
    (hd : dbTable st.targetDB t = none) :
    get_table_differences st t
      = ({ st with source_metadata := sm }, .error (.noSuchTable t)) := by
  have hrt : reflectTable st.target_metadata st.targetDB t
      = .error (.noSuchTable t) := by
    unfold reflectTable
    rw [hm, hd]
  unfold get_table_differences
  rw [hok]
  dsimp only
  rw [hrt]

theorem syncOneTable_of_diff_error {st : SyncState} {t : String} {st2 : SyncState}
    {e : Err}
    (h : get_table_differences
        { st with log := st.log
            ++ [LogEntry.info ("Начало синхронизации таблицы " ++ t)] } t
      = (st2, .error e)) :
    syncOneTable st t = (st2, .error e) := by
  unfold syncOneTable
  rw [h]

/-- C5: `synchronize_database` with an explicit list processes exactly the
named tables in order (one step per head, fail-fast on the first error, the
remaining tables untouched); with no list it reflects the whole source schema
and processes the reflected table names; each per-table step logs the start
line first, then diffs, then synchronizes. -/
theorem c5_orchestration :
    (∀ (st : SyncState) (t : String) (rest : List String) (st2 : SyncState) (e : Err),
       syncOneTable st t = (st2, .error e) →
       synchronize_database st (some (t :: rest)) = (st2, .error e)) ∧
    (∀ (st : SyncState) (t : String) (rest : List String) (st2 : SyncState),
       syncOneTable st t = (st2, .ok ()) →
       synchronize_database st (some (t :: rest))
         = synchronize_database st2 (some rest)) ∧
    (∀ st : SyncState, st.source_metadata = [] →
       synchronize_database st none
         = synchronize_database
             { st with source_metadata := st.sourceDB.map (fun p => (p.1, p.2.schema)) }
             (some (st.sourceDB.map (fun p => p.1)))) ∧
    (∀ (st : SyncState) (t : String), ∃ d, (syncOneTable st t).1.log
       = st.log ++ LogEntry.info ("Начало синхронизации таблицы " ++ t) :: d) := by
  refine ⟨fun st t rest st2 e h => syncTables_cons_error rest h,
          fun st t rest st2 h => syncTables_cons_ok rest h, ?_, syncOneTable_log⟩
  intro st h
  unfold synchronize_database
  rw [h, metadataReflectAll_nil]
  simp [List.map_map, Function.comp_def]

/-- Witness for C5: on a fresh synchronizer with no tables, the first listed
table fails in the diff step and the second is never attempted. -/
theorem c5_witness :
    synchronize_database fxEmptyState (some ["users", "t2"])
      = ((syncOneTable fxEmptyState "users").1, .error (Err.noSuchTable "users")) :=
  c5_orchestration.1 fxEmptyState "users" ["t2"]
    (syncOneTable fxEmptyState "users").1 (Err.noSuchTable "users") (by rfl)

/-- C6: all row writes of one table are committed only when the whole row
loop succeeds: when the source table cannot be reflected the call returns
with only the error log line added and every other field (both databases,
both metadata collections) unchanged; and on any error the target database
retains every preexisting table completely unchanged — no partial writes. -/
theorem c6_transactionality :
    (∀ (st : SyncState) (t : String),
       metaLookup st.source_metadata t = none → dbTable st.sourceDB t = none →
       synchronize_table st t
         = ({ st with log := st.log
               ++ [LogEntry.error (syncErrMsg t (Err.noSuchTable t))] },
            .error (Err.noSuchTable t))) ∧
    (∀ (st : SyncState) (t : String) (st2 : SyncState) (e : Err),
       synchronize_table st t = (st2, .error e) →
       ∀ (n : String) (td : TableData), dbTable st.targetDB n = some td →
         dbTable st2.targetDB n = some td) := by
  refine ⟨fun st t hm hd => synchronize_table_reflect_fail hm hd, ?_⟩
  intro st t st2 e h n td htd
  rcases synchronize_table_error_targetDB h with h1 | ⟨ss, h1⟩
  · rw [h1]
    exact htd
  · rw [h1]
    exact @dbTable_createIfAbsent st.targetDB n t td ss htd

/-- Witness for C6: syncing a table absent from the source of a fresh
synchronizer raises before touching the target. -/
theorem c6_witness :
    synchronize_table fxEmptyState "users"
      = ({ fxEmptyState with
            log := fxEmptyState.log
              ++ [LogEntry.error (syncErrMsg "users" (Err.noSuchTable "users"))] },
         .error (Err.noSuchTable "users")) :=
  c6_transactionality.1 fxEmptyState "users" (by rfl) (by rfl)

/-- C7 counterexample: for a missing source table the error that propagates
out of `synchronize_table` is the underlying reflection error itself, not a
`SyncError` wrapper — refuting "fails with a SyncError wrapping the
underlying store/connection error". -/
theorem c7_counterexample :
    (synchronize_table fxEmptyState "users").2 = .error (Err.noSuchTable "users")
    ∧ isSyncError (Err.noSuchTable "users") = false :=
  ⟨rfl, rfl⟩

/-- C7 (amended): on any failure `synchronize_table` appends, as its last log
line, an error entry naming the table and the rendering of the underlying
cause, and re-raises that underlying error itself to the caller unchanged (no
wrapper, no retry). -/
theorem c7_error_logging :
    ∀ (st : SyncState) (t : String) (st2 : SyncState) (e : Err),
    synchronize_table st t = (st2, .error e) →
    (∃ d, st2.log = st.log ++ d ++ [LogEntry.error (syncErrMsg t e)])
    ∧ syncErrMsg t e
      = "Ошибка при синхронизации таблицы " ++ t ++ ": " ++ errStr e :=
  fun _ _ _ _ h => ⟨synchronize_table_error_log h, rfl⟩

/-- Witness for C7 at a missing source table. -/
theorem c7_witness :
    ∃ d, (synchronize_table fxEmptyState "users").1.log
      = fxEmptyState.log ++ d
        ++ [LogEntry.error (syncErrMsg "users" (Err.noSuchTable "users"))] :=
  (c7_error_logging fxEmptyState "users" (synchronize_table fxEmptyState "users").1
    (Err.noSuchTable "users") (by rfl)).1

/-- C8 counterexample: the first diff of a table mutates the synchronizer's
own state — the reflected source table is cached into `source_metadata` —
refuting "computing the diff leaves the synchronizer's own state (its
metadata collections) unchanged". -/
theorem c8_counterexample :
    (get_table_differences fxStT "t").1.source_metadata ≠ fxStT.source_metadata := by
  decide

/-- C8 (amended): the diff mutates neither database nor the log, and a
successful result is exactly the pure column diff of the two reflected
schemas; the synchronizer's metadata collections, however, may gain the
reflected tables. -/
theorem c8_diff_effects :
    ∀ (st : SyncState) (t : String),
    (get_table_differences st t).1.sourceDB = st.sourceDB ∧
    (get_table_differences st t).1.targetDB = st.targetDB ∧
    (get_table_differences st t).1.log = st.log ∧
    (∀ d, (get_table_differences st t).2 = .ok d →
       ∃ sc sm tc tm,
         reflectTable st.source_metadata st.sourceDB t = .ok (sc, sm)
         ∧ reflectTable st.target_metadata st.targetDB t = .ok (tc, tm)
         ∧ d = diffColumns sc tc) := by
  intro st t
  obtain ⟨h1, h2, h3⟩ := get_table_differences_frame st t
  refine ⟨h1, h2, h3, ?_⟩
  intro d hd
  rcases h4 : reflectTable st.source_metadata st.sourceDB t with e | ⟨sc, sm⟩
  · simp [get_table_differences, h4] at hd
  · rcases h5 : reflectTable st.target_metadata st.targetDB t with e | ⟨tc, tm⟩
    · simp [get_table_differences, h4, h5] at hd
    · simp only [get_table_differences, h4, h5] at hd
      simp at hd
      exact ⟨sc, sm, tc, tm, rfl, rfl, hd.symm⟩

/-- Witness for C8: both stores hold `t` with the same schema; the diff is
the pure diff of the two reflected schemas (three empty sets). -/
theorem c8_witness :
    ∃ sc sm tc tm,
      reflectTable fxStBoth.source_metadata fxStBoth.sourceDB "t" = .ok (sc, sm)
      ∧ reflectTable fxStBoth.target_metadata fxStBoth.targetDB "t" = .ok (tc, tm)
      ∧ (⟨[], [], []⟩ : Differences) = diffColumns sc tc :=
  (c8_diff_effects fxStBoth "t").2.2.2 ⟨[], [], []⟩ (by rfl)

/-- C9: for a table present in the source but absent from the target database
(and not previously cached in the target metadata), `synchronize_database`
fails inside the diff step with the target-reflection error: the returned
state differs from the input only in the start log line and the cached source
schema, so the target database is untouched, no table is created, and
`synchronize_table` (hence its create-if-absent provisioning) is never
reached. -/
theorem c9_unreachable_provisioning :
    ∀ (st : SyncState) (t : String) (rest : List String) (std : TableData),
    dbTable st.sourceDB t = some std →
    metaLookup st.target_metadata t = none →
    dbTable st.targetDB t = none →
    ∃ sm, synchronize_database st (some (t :: rest))
      = ({ st with
            log := st.log ++ [LogEntry.info ("Начало синхронизации таблицы " ++ t)],
            source_metadata := sm },
         .error (Err.noSuchTable t)) := by
  intro st t rest std hs hm hd
  obtain ⟨sc, sm, hok⟩ := reflectTable_ok_of_db st.source_metadata hs
  have hdiff := @get_table_differences_target_missing
    { st with log := st.log ++ [LogEntry.info ("Начало синхронизации таблицы " ++ t)] }
    t sc sm hok hm hd
  have hone := syncOneTable_of_diff_error hdiff
  exact ⟨sm, syncTables_cons_error rest hone⟩

/-- Witness for C9: fresh synchronizer, source holds `t`, target empty. -/
theorem c9_witness :
    ∃ sm, synchronize_database fxStT (some ["t"])
      = ({ fxStT with
            log := fxStT.log
              ++ [LogEntry.info ("Начало синхронизации таблицы " ++ "t")],
            source_metadata := sm },
         .error (Err.noSuchTable "t")) :=
  c9_unreachable_provisioning fxStT "t" [] ⟨fxSchemaT, fxRowsT⟩ (by rfl) (by rfl)
    (by rfl)

end SynchroClass
